import Mathlib

/-!
Verification of the mermaid-exporter plugin (`src/main.ts`) against its
natural-language specification.  The TypeScript source is shallowly embedded:
JS strings are sequences of code units, so the string primitives are defined
on the character list underlying `String`; the DOM, render engine and
file-system collaborators become explicit behaviour records; and the
asynchronous poll loop becomes fuel-bounded recursion.
-/

set_option maxRecDepth 8000

/-! ## JS string primitives -/

/-- JS `s.startsWith(p)`. -/
def strStartsWith (s p : String) : Bool := p.data.isPrefixOf s.data

/-- JS `s.endsWith(p)`. -/
def strEndsWith (s p : String) : Bool := p.data.reverse.isPrefixOf s.data.reverse

/-- Drop the first `n` code units of `s`. -/
def strDrop (s : String) (n : Nat) : String := String.mk (s.data.drop n)

/-- Drop the last `n` code units of `s`. -/
def strDropRight (s : String) (n : Nat) : String :=
  String.mk (s.data.take (s.data.length - n))

/-- JS `s.trim()`: remove whitespace from both ends. -/
def strTrim (s : String) : String :=
  String.mk (((s.data.dropWhile Char.isWhitespace).reverse.dropWhile
    Char.isWhitespace).reverse)

/-- JS `content.substring(a, b)`: swaps the bounds when reversed and clamps
them to the string length, returning the code-unit slice. -/
def jsSubstring (s : String) (a b : Nat) : String :=
  String.mk ((s.data.take (max a b)).drop (min a b))

/-! ## Block extractor (`extractMermaidBlocks`, main.ts lines 101-128) -/

/-- Position data of the metadata cache: `position.start.line` / `.offset`. -/
structure Loc where
  line : Nat
  offset : Nat
  deriving DecidableEq, Repr

/-- One entry of `cache.sections`. -/
structure SectionCache where
  type : String
  startLoc : Loc
  endLoc : Loc
  deriving DecidableEq, Repr

/-- One entry of `cache.headings`. -/
structure HeadingCache where
  heading : String
  startLine : Nat
  deriving DecidableEq, Repr

/-- The metadata cache consumed by `extractMermaidBlocks`: both `sections`
and `headings` may be absent. -/
structure FileCache where
  sections : Option (List SectionCache)
  headings : Option (List HeadingCache)

/-- The `MermaidBlock` record produced by the extractor. -/
structure MermaidBlock where
  code : String
  heading : String
  deriving DecidableEq, Repr

/-- The opening fence marker tested by `blockContent.startsWith` in the source. -/
def fenceOpen : String := "```mermaid"

/-- The closing fence delimiter. -/
def fenceTicks : String := "```"

/-- JS `blockContent.replace(/^` ``` `mermaid\n?/, '')`: removes the leading
fence marker and one optional newline when the string starts with the marker. -/
def stripOpenFence (s : String) : String :=
  if strStartsWith s fenceOpen then
    let rest := strDrop s fenceOpen.length
    if strStartsWith rest "\n" then strDrop rest 1 else rest
  else s

/-- JS `.replace(/\n?` ``` `$/, '')`: removes a trailing fence, together with
one optional newline directly before it, when the string ends with the fence. -/
def stripCloseFence (s : String) : String :=
  if strEndsWith s ("\n" ++ fenceTicks) then strDropRight s (fenceTicks.length + 1)
  else if strEndsWith s fenceTicks then strDropRight s fenceTicks.length
  else s

/-- The `code` field computed at main.ts line 112: strip the opening fence,
strip the closing fence, then `.trim()`. -/
def mermaidCode (blockContent : String) : String :=
  strTrim (stripCloseFence (stripOpenFence blockContent))

/-- Backward scan of main.ts lines 116-121, expressed on the reversed heading
list: the first heading encountered whose line is strictly below `line` wins,
otherwise the sentinel is kept. -/
def nearestHeadingAux : List HeadingCache → Nat → String
  | [], _ => "direct content"
  | h :: rest, line =>
    if h.startLine < line then h.heading else nearestHeadingAux rest line

/-- The `for (let i = headings.length - 1; i >= 0; i--)` loop of the source:
scan the headings from last to first for the first one starting strictly
before `line`. -/
def nearestHeading (headings : List HeadingCache) (line : Nat) : String :=
  nearestHeadingAux headings.reverse line

/-- Body of the section loop of `extractMermaidBlocks` (main.ts lines 108-126). -/
def extractGo (content : String) (headings : List HeadingCache) :
    List SectionCache → List MermaidBlock
  | [] => []
  | s :: rest =>
    if s.type = "code" then
      let blockContent := jsSubstring content s.startLoc.offset s.endLoc.offset
      if strStartsWith blockContent fenceOpen then
        { code := mermaidCode blockContent,
          heading := nearestHeading headings s.startLoc.line } ::
          extractGo content headings rest
      else extractGo content headings rest
    else extractGo content headings rest

/-- `extractMermaidBlocks(content, file)` of main.ts lines 101-128: returns
`[]` when the cache or its `sections` are absent, otherwise runs the section
loop with `cache.headings || []`. -/
def extractMermaidBlocks (content : String) (cache : Option FileCache) :
    List MermaidBlock :=
  match cache with
  | none => []
  | some c =>
    match c.sections with
    | none => []
    | some sections => extractGo content (c.headings.getD []) sections

/-- Decides whether a section is picked up by the extractor: `type === 'code'`
and its literal content starts with the mermaid fence marker. -/
def isMermaidSection (content : String) (s : SectionCache) : Bool :=
  decide (s.type = "code") &&
    strStartsWith (jsSubstring content s.startLoc.offset s.endLoc.offset) fenceOpen

lemma extractGo_eq_filter_map (content : String) (headings : List HeadingCache) :
    ∀ sections : List SectionCache,
      extractGo content headings sections =
        (sections.filter (isMermaidSection content)).map
          (fun s =>
            { code := mermaidCode (jsSubstring content s.startLoc.offset s.endLoc.offset),
              heading := nearestHeading headings s.startLoc.line })
  | [] => rfl
  | s :: rest => by
    by_cases ht : s.type = "code"
    · by_cases hf : strStartsWith
          (jsSubstring content s.startLoc.offset s.endLoc.offset) fenceOpen
      · simp [extractGo, ht, hf, isMermaidSection,
          extractGo_eq_filter_map content headings rest]
      · simp [extractGo, ht, hf, isMermaidSection,
          extractGo_eq_filter_map content headings rest]
    · simp [extractGo, ht, isMermaidSection,
        extractGo_eq_filter_map content headings rest]

/-- C2: for every document text and outline, the extractor returns exactly the
code-typed sections whose literal content starts with the mermaid fence, in
section order, each carrying the section text with the opening fence (plus its
trailing newline) and the closing fence stripped and the result trimmed; an
absent or empty section list yields the empty sequence. -/
theorem extractMermaidBlocks_spec (content : String) (sections : List SectionCache)
    (hs : Option (List HeadingCache)) :
    extractMermaidBlocks content (some ⟨some sections, hs⟩) =
      (sections.filter (isMermaidSection content)).map
        (fun s =>
          { code := strTrim (stripCloseFence (stripOpenFence
              (jsSubstring content s.startLoc.offset s.endLoc.offset))),
            heading := nearestHeading (hs.getD []) s.startLoc.line }) ∧
    (extractMermaidBlocks content (some ⟨some sections, hs⟩)).length =
      (sections.filter (isMermaidSection content)).length ∧
    extractMermaidBlocks content (some ⟨some [], hs⟩) = [] ∧
    extractMermaidBlocks content (some ⟨none, hs⟩) = [] ∧
    extractMermaidBlocks content none = [] := by
  refine ⟨?_, ?_, rfl, rfl, rfl⟩
  · simpa [mermaidCode] using
      extractGo_eq_filter_map content (hs.getD []) sections
  · simp [extractMermaidBlocks, extractGo_eq_filter_map content (hs.getD []) sections]

/-- The specification-side characterisation of the context label: either no
heading starts strictly before `line` and the label is the sentinel, or the
label is the text of the last heading (in outline order) whose start line is
strictly below `line`. -/
def LastHeadingSpec (hs : List HeadingCache) (line : Nat) (lbl : String) : Prop :=
  (lbl = "direct content" ∧ ∀ h ∈ hs, ¬ h.startLine < line) ∨
  (∃ l1 h l2, hs = l1 ++ h :: l2 ∧ h.startLine < line ∧ lbl = h.heading ∧
    ∀ x ∈ l2, ¬ x.startLine < line)

lemma nearestHeadingAux_spec (line : Nat) :
    ∀ hs : List HeadingCache,
      (nearestHeadingAux hs line = "direct content" ∧ ∀ h ∈ hs, ¬ h.startLine < line) ∨
      (∃ p h q, hs = p ++ h :: q ∧ h.startLine < line ∧
        nearestHeadingAux hs line = h.heading ∧ ∀ x ∈ p, ¬ x.startLine < line)
  | [] => Or.inl ⟨rfl, by simp⟩
  | h :: rest => by
    by_cases hh : h.startLine < line
    · exact Or.inr ⟨[], h, rest, by simp, hh, by simp [nearestHeadingAux, hh], by simp⟩
    · rcases nearestHeadingAux_spec line rest with ⟨he, hall⟩ | ⟨p, g, q, heq, hg, hres, hall⟩
      · refine Or.inl ⟨by simp [nearestHeadingAux, hh, he], ?_⟩
        intro x hx
        rcases List.mem_cons.mp hx with hx | hx
        · simpa [hx] using hh
        · exact hall x hx
      · refine Or.inr ⟨h :: p, g, q, by simp [heq], hg,
          by simp [nearestHeadingAux, hh, hres], ?_⟩
        intro x hx
        rcases List.mem_cons.mp hx with hx | hx
        · simpa [hx] using hh
        · exact hall x hx

lemma nearestHeading_spec (hs : List HeadingCache) (line : Nat) :
    LastHeadingSpec hs line (nearestHeading hs line) := by
  unfold nearestHeading LastHeadingSpec
  rcases nearestHeadingAux_spec line hs.reverse with ⟨he, hall⟩ | ⟨p, g, q, heq, hg, hres, hall⟩
  · refine Or.inl ⟨he, ?_⟩
    intro h hm
    exact hall h (List.mem_reverse.mpr hm)
  · refine Or.inr ⟨q.reverse, g, p.reverse, ?_, hg, hres, ?_⟩
    · have := congrArg List.reverse heq
      simpa [List.reverse_append] using this
    · intro x hx
      exact hall x (List.mem_reverse.mp hx)

/-- C3: every extracted block's heading label is the sentinel "direct content"
when no heading in the outline starts strictly before the block's section
start line, and otherwise equals the text of the last such heading in outline
order; moreover it is exactly the backward-scan result `nearestHeading`. -/
theorem extract_heading_lastBefore (content : String) (sections : List SectionCache)
    (hlist : List HeadingCache) (b : MermaidBlock)
    (hb : b ∈ extractMermaidBlocks content (some ⟨some sections, some hlist⟩)) :
    ∃ s ∈ sections, isMermaidSection content s = true ∧
      b.heading = nearestHeading hlist s.startLoc.line ∧
      LastHeadingSpec hlist s.startLoc.line b.heading := by
  have hmap : extractMermaidBlocks content (some ⟨some sections, some hlist⟩) =
      (sections.filter (isMermaidSection content)).map
        (fun s =>
          { code := mermaidCode (jsSubstring content s.startLoc.offset s.endLoc.offset),
            heading := nearestHeading hlist s.startLoc.line }) := by
    simpa using extractGo_eq_filter_map content hlist sections
  rw [hmap] at hb
  rcases List.mem_map.mp hb with ⟨s, hsmem, hbs⟩
  have hsf := List.mem_filter.mp hsmem
  refine ⟨s, hsf.1, hsf.2, ?_, ?_⟩
  · rw [← hbs]
  · rw [← hbs]
    exact nearestHeading_spec hlist s.startLoc.line

/-- Concrete instantiation of the heading-attribution theorem: a one-section
document whose block starts at line 2 picks up the heading "B" at line 1. -/
theorem extract_heading_lastBefore_witness :
    ∃ s ∈ [SectionCache.mk "code" ⟨2, 0⟩ ⟨4, 16⟩],
      isMermaidSection "```mermaid\nX\n```" s = true ∧
      (MermaidBlock.mk "X" "B").heading = nearestHeading [⟨"B", 1⟩] s.startLoc.line ∧
      LastHeadingSpec [⟨"B", 1⟩] s.startLoc.line (MermaidBlock.mk "X" "B").heading :=
  extract_heading_lastBefore "```mermaid\nX\n```" [⟨"code", ⟨2, 0⟩, ⟨4, 16⟩⟩]
    [⟨"B", 1⟩] ⟨"X", "B"⟩ (by decide)

/-! ## Render orchestrator (`renderMermaidToSvg`, main.ts lines 131-196)

The DOM and the external render engine are modelled as a behaviour record:
whether the `MarkdownRenderer.render` call rejects, and which SVG candidates
the container holds at each polling attempt.  The function body has no
try/finally, so an exception raised by the render call propagates before the
`document.body.removeChild(tempContainer)` at line 194 is reached. -/

/-- An `svg` element observed in the temp container: whether it carries the
`copy-code-button` class itself, and whether it sits inside a
`copy-code-button` ancestor. -/
structure SvgCandidate where
  hasCopyClass : Bool
  inCopyButton : Bool
  deriving DecidableEq, Repr

/-- External behaviour of one `renderMermaidToSvg` invocation: whether the
`MarkdownRenderer.render` promise rejects, and the container contents at each
polling attempt. -/
structure RenderBehaviour where
  renderThrows : Bool
  domAt : Nat → List SvgCandidate

/-- `tempContainer.querySelector('svg:not(.copy-code-button)')`: the first
candidate without the copy-button class. -/
def querySvgNotCopy (elems : List SvgCandidate) : Option SvgCandidate :=
  elems.find? (fun e => !e.hasCopyClass)

/-- One iteration's check (main.ts lines 168-174): take the query result and
accept it only if it is not inside a copy-button container. -/
def pollCheck (elems : List SvgCandidate) : Option SvgCandidate :=
  match querySvgNotCopy elems with
  | some c => if c.inCopyButton then none else some c
  | none => none

/-- Result of the poll loop: the SVG found, if any, and the number of
attempts performed. -/
structure PollOut where
  found : Option SvgCandidate
  attempts : Nat
  deriving DecidableEq, Repr

/-- `maxRetries` of main.ts line 163. -/
def maxRetries : Nat := 200

/-- The 50ms `setTimeout` interval of main.ts line 175. -/
def pollIntervalMs : Nat := 50

/-- The `for(let i=0; i<maxRetries; i++)` poll loop, fuel-bounded: it runs at
most `fuel` attempts, stopping early at the first accepted candidate. -/
def pollLoop (dom : Nat → List SvgCandidate) : Nat → Nat → PollOut
  | 0, _ => ⟨none, 0⟩
  | fuel + 1, i =>
    match pollCheck (dom i) with
    | some c => ⟨some c, 1⟩
    | none =>
      let r := pollLoop dom fuel (i + 1)
      ⟨r.found, r.attempts + 1⟩

/-- Outcome of one `renderMermaidToSvg` call: either the exception from the
render step propagated, or the function returned the (possibly null) SVG. -/
inductive RenderOutcome where
  | threw
  | returned (svg : Option SvgCandidate)
  deriving DecidableEq

/-- Observable trace of one `renderMermaidToSvg` call: its outcome, whether
`document.body.removeChild(tempContainer)` was executed, and how many poll
attempts ran. -/
structure RenderRun where
  outcome : RenderOutcome
  containerRemoved : Bool
  pollAttempts : Nat

/-- `renderMermaidToSvg` (main.ts lines 131-196): append the temp container,
await the render call, poll up to `maxRetries` times, then remove the
container and return the cloned SVG or null.  There is no try/finally, so a
rejecting render call exits before the removal statement. -/
def renderMermaidToSvg (b : RenderBehaviour) : RenderRun :=
  if b.renderThrows then
    ⟨RenderOutcome.threw, false, 0⟩
  else
    let p := pollLoop b.domAt maxRetries 0
    ⟨RenderOutcome.returned p.found, true, p.attempts⟩

/-- C1 counterexample: when the render call rejects, `renderMermaidToSvg`
exits without removing the transient container, so the claimed
guaranteed-cleanup on every exit branch fails. -/
theorem renderMermaid_cleanup_cex :
    (renderMermaidToSvg ⟨true, fun _ => []⟩).containerRemoved = false := rfl

/-- C1 (amended): on every run in which the render call does not throw —
which covers both the success and the timeout exits — the transient container
is removed before `renderMermaidToSvg` returns. -/
theorem renderMermaid_cleanup_amended (b : RenderBehaviour)
    (h : b.renderThrows = false) :
    (renderMermaidToSvg b).containerRemoved = true := by
  simp [renderMermaidToSvg, h]

/-- Concrete instantiation of the amended cleanup theorem. -/
theorem renderMermaid_cleanup_amended_witness :
    (renderMermaidToSvg ⟨false, fun _ => []⟩).containerRemoved = true :=
  renderMermaid_cleanup_amended ⟨false, fun _ => []⟩ rfl

lemma pollLoop_all_none (dom : Nat → List SvgCandidate)
    (h : ∀ i, pollCheck (dom i) = none) :
    ∀ fuel start : Nat, pollLoop dom fuel start = ⟨none, fuel⟩
  | 0, _ => rfl
  | fuel + 1, start => by
    simp [pollLoop, h start, pollLoop_all_none dom h fuel (start + 1)]

/-- C4: whenever the render engine never places a qualifying SVG (one that is
neither a copy-code-button itself nor inside one) in the container,
`renderMermaidToSvg` terminates, returns null, and performs at most
`maxRetries = 200` polling attempts at the fixed `pollIntervalMs = 50`
millisecond interval (the 10-second ceiling). -/
theorem renderMermaid_timeout_bound (b : RenderBehaviour)
    (hthrow : b.renderThrows = false)
    (hnone : ∀ i, pollCheck (b.domAt i) = none) :
    (renderMermaidToSvg b).outcome = RenderOutcome.returned none ∧
    (renderMermaidToSvg b).pollAttempts ≤ maxRetries ∧
    maxRetries = 200 ∧ pollIntervalMs = 50 := by
  have hp := pollLoop_all_none b.domAt hnone maxRetries 0
  refine ⟨?_, ?_, rfl, rfl⟩
  · simp [renderMermaidToSvg, hthrow, hp]
  · simp [renderMermaidToSvg, hthrow, hp]

/-- Concrete instantiation of the timeout bound: an engine that never
produces any element. -/
theorem renderMermaid_timeout_bound_witness :
    (renderMermaidToSvg ⟨false, fun _ => []⟩).outcome = RenderOutcome.returned none ∧
    (renderMermaidToSvg ⟨false, fun _ => []⟩).pollAttempts ≤ maxRetries ∧
    maxRetries = 200 ∧ pollIntervalMs = 50 :=
  renderMermaid_timeout_bound ⟨false, fun _ => []⟩ rfl (fun _ => rfl)

/-! ## Filename construction and sanitisation (main.ts lines 215-217) -/

/-- The nine reserved characters of the regex `[\\/:*?"<>|]`. -/
def reservedChars : List Char := ['\\', '/', ':', '*', '?', '"', '<', '>', '|']

/-- JS `heading.replace(/[\\/:*?"<>|]/g, '-')`: every occurrence of a
reserved character becomes a dash. -/
def sanitizeHeading (s : String) : String :=
  String.mk (s.data.map (fun c => if c ∈ reservedChars then '-' else c))

/-- The template literal of main.ts line 217:
`${baseName}-${sanitizedHeading}-${index + 1}.${format}`. -/
def defaultFileName (baseName heading : String) (index : Int) (fmt : String) :
    String :=
  baseName ++ "-" ++ sanitizeHeading heading ++ "-" ++ toString (index + 1) ++
    "." ++ fmt

/-- C8: the output filename is the document base name, the sanitised heading
and the 1-based index joined by dashes with the format extension; base name
"Notes", heading "Sys/Arch", 0-based index 0 and format "png" produce
"Notes-Sys-Arch-1.png"; sanitisation maps each of the nine reserved
characters to a dash and is idempotent. -/
theorem fileName_sanitize_spec :
    defaultFileName "Notes" "Sys/Arch" 0 "png" = "Notes-Sys-Arch-1.png" ∧
    sanitizeHeading "\\/:*?\"<>|" = "---------" ∧
    (∀ s, sanitizeHeading (sanitizeHeading s) = sanitizeHeading s) ∧
    (∀ b h f (i : Int), defaultFileName b h i f =
      b ++ "-" ++ sanitizeHeading h ++ "-" ++ toString (i + 1) ++ "." ++ f) := by
  refine ⟨by decide, by decide, ?_, fun _ _ _ _ => rfl⟩
  intro s
  have hfix : ∀ c : Char,
      (if (if c ∈ reservedChars then '-' else c) ∈ reservedChars then '-'
        else if c ∈ reservedChars then '-' else c) =
      (if c ∈ reservedChars then '-' else c) := by
    intro c
    by_cases hc : c ∈ reservedChars
    · have hd : ('-' : Char) ∉ reservedChars := by decide
      simp [hc, hd]
    · simp [hc]
  simp only [sanitizeHeading, List.map_map]
  refine congrArg String.mk ?_
  refine List.map_congr_left ?_
  intro c _
  simpa using hfix c

/-! ## Persistence step (`saveSvgAsImage`, main.ts lines 198-310)

The file system is a map from paths to byte lists; the electron save dialog
is an environment value.  The model starts after the byte buffer has been
produced, at the path-resolution and write logic of lines 261-304. -/

/-- `path.join(targetDirectory, defaultFileName)` with the separator. -/
def joinPath (dir name : String) : String := dir ++ "/" ++ name

/-- The plugin settings record consumed by the save step. -/
structure SaveSettings where
  imageScale : Nat
  format : String
  autoOpen : Bool
  overwrite : Bool
  deriving DecidableEq, Repr

/-- External collaborators of one save: the file-system contents and the
outcome of `dialog.showSaveDialog` (`none` = cancelled). -/
structure SaveEnv where
  fs : String → Option (List Nat)
  saveDialogResult : Option String

/-- Observable outcome of one `saveSvgAsImage` call: the resulting file
system, the notices raised, whether the interactive save dialog was used,
the written path (if a write happened) and the auto-opened path (if any). -/
structure SaveResult where
  fs : String → Option (List Nat)
  notices : List String
  usedSaveDialog : Bool
  wrotePath : Option String
  openedPath : Option String

/-- `fs.writeFileSync(p, buffer)`. -/
def fsWrite (fs : String → Option (List Nat)) (p : String) (buf : List Nat) :
    String → Option (List Nat) :=
  fun q => if q = p then some buf else fs q

/-- Path-resolution and write logic of `saveSvgAsImage` (main.ts lines
261-304).  With a target directory: join the path; if the file exists and
`overwrite` is off, skip, raising the "already exists" notice only when
`skipOpen` is false; otherwise write and, when `autoOpen` holds and
`skipOpen` is false, open the file.  Without a target directory: consult
the save dialog and write to the chosen path unless cancelled. -/
def saveSvgAsImage (env : SaveEnv) (st : SaveSettings) (baseName heading : String)
    (index : Int) (buffer : List Nat) (targetDirectory : Option String)
    (skipOpen : Bool) : SaveResult :=
  let name := defaultFileName baseName heading index st.format
  match targetDirectory with
  | some dir =>
    let finalPath := joinPath dir name
    if (env.fs finalPath).isSome && !st.overwrite then
      { fs := env.fs,
        notices := if skipOpen then [] else
          ["File already exists, skipping: " ++ name],
        usedSaveDialog := false, wrotePath := none, openedPath := none }
    else
      { fs := fsWrite env.fs finalPath buffer, notices := [],
        usedSaveDialog := false, wrotePath := some finalPath,
        openedPath := if st.autoOpen && !skipOpen then some finalPath else none }
  | none =>
    match env.saveDialogResult with
    | some p =>
      { fs := fsWrite env.fs p buffer, notices := [], usedSaveDialog := true,
        wrotePath := some p,
        openedPath := if st.autoOpen && !skipOpen then some p else none }
    | none =>
      { fs := env.fs, notices := [], usedSaveDialog := true,
        wrotePath := none, openedPath := none }

/-- C6 counterexample: in a batch export (`skipOpen = true`) with
`overwrite = false` and the target path occupied, the write is skipped and
the bytes are untouched, but no "already exists" notice is raised — the
notice is gated on `!skipOpen`, so the claim fails for batch exports. -/
theorem save_skip_notice_cex :
    (saveSvgAsImage
        ⟨fun q => if q = "d/Notes-H-1.png" then some [1, 2, 3] else none, none⟩
        ⟨2, "png", true, false⟩ "Notes" "H" 0 [9] (some "d") true).notices = [] ∧
    (saveSvgAsImage
        ⟨fun q => if q = "d/Notes-H-1.png" then some [1, 2, 3] else none, none⟩
        ⟨2, "png", true, false⟩ "Notes" "H" 0 [9] (some "d") true).fs
      "d/Notes-H-1.png" = some [1, 2, 3] ∧
    (saveSvgAsImage
        ⟨fun q => if q = "d/Notes-H-1.png" then some [1, 2, 3] else none, none⟩
        ⟨2, "png", true, false⟩ "Notes" "H" 0 [9] (some "d") true).wrotePath
      = none := by
  refine ⟨?_, ?_, ?_⟩ <;> decide

/-- C6 (amended): with `overwrite = false` and the computed target path
already present, the write is skipped and the file system is untouched; the
"already exists" notice is raised exactly when `skipOpen` is false, i.e. for
single-item exports, and is suppressed for batch exports. -/
theorem save_skip_amended (env : SaveEnv) (st : SaveSettings)
    (baseName heading : String) (index : Int) (buffer : List Nat)
    (dir : String) (skipOpen : Bool)
    (hov : st.overwrite = false)
    (hex : (env.fs (joinPath dir
      (defaultFileName baseName heading index st.format))).isSome = true) :
    (saveSvgAsImage env st baseName heading index buffer (some dir) skipOpen).fs
      = env.fs ∧
    (saveSvgAsImage env st baseName heading index buffer (some dir)
      skipOpen).wrotePath = none ∧
    (saveSvgAsImage env st baseName heading index buffer (some dir)
      skipOpen).notices =
      (if skipOpen then [] else ["File already exists, skipping: " ++
        defaultFileName baseName heading index st.format]) := by
  simp [saveSvgAsImage, hov, hex]

/-- Concrete instantiation of the skip theorem for a single-item export:
the notice fires and the bytes are untouched. -/
theorem save_skip_amended_witness :
    (saveSvgAsImage
        ⟨fun q => if q = "d/Notes-H-1.png" then some [1, 2, 3] else none, none⟩
        ⟨2, "png", true, false⟩ "Notes" "H" 0 [9] (some "d") false).fs
      = (fun q => if q = "d/Notes-H-1.png" then some [1, 2, 3] else none) ∧
    (saveSvgAsImage
        ⟨fun q => if q = "d/Notes-H-1.png" then some [1, 2, 3] else none, none⟩
        ⟨2, "png", true, false⟩ "Notes" "H" 0 [9] (some "d") false).wrotePath
      = none ∧
    (saveSvgAsImage
        ⟨fun q => if q = "d/Notes-H-1.png" then some [1, 2, 3] else none, none⟩
        ⟨2, "png", true, false⟩ "Notes" "H" 0 [9] (some "d") false).notices =
      (if false then [] else ["File already exists, skipping: " ++
        defaultFileName "Notes" "H" 0 "png"]) :=
  save_skip_amended
    ⟨fun q => if q = "d/Notes-H-1.png" then some [1, 2, 3] else none, none⟩
    ⟨2, "png", true, false⟩ "Notes" "H" 0 [9] "d" false rfl (by decide)

/-! ## Raster surface sizing (main.ts lines 203-232)

`canvas.width = width * scale` assigns a JS number to a WebIDL
`unsigned long` attribute, which truncates toward zero and reduces modulo
2^32; intrinsic dimensions are modelled as rationals (exact for every
dyadic value a viewBox can hold). -/

/-- JS number-to-integer truncation (toward zero). -/
def jsTrunc (q : ℚ) : Int :=
  if q < 0 then -Int.floor (-q) else Int.floor q

/-- The WebIDL `unsigned long` conversion applied by the
`canvas.width`/`canvas.height` setters: truncate, then reduce modulo 2^32. -/
def toUint32 (q : ℚ) : Nat := ((jsTrunc q) % (2 ^ 32 : Int)).toNat

/-- The drawing-surface dimensions allocated at main.ts lines 226-227
(`canvas.width = width * scale; canvas.height = height * scale`), which are
also the dimensions of the exported PNG. -/
def canvasDims (w h scale : ℚ) : Nat × Nat :=
  (toUint32 (w * scale), toUint32 (h * scale))

/-- JS `Math.round`: floor of the value plus one half. -/
def jsRound (q : ℚ) : Int := Int.floor (q + 1 / 2)

/-- C7 counterexample: an intrinsic width of 10.5 at scale 1 yields a
10-pixel-wide surface (truncation), not the 11 pixels that rounding would
give, so the claimed `round(width*scale)` sizing fails for non-integral
dimensions. -/
theorem canvas_round_cex :
    canvasDims (21 / 2) 10 1 = (10, 10) ∧
    (jsRound ((21 : ℚ) / 2 * 1)).toNat = 11 ∧
    canvasDims (21 / 2) 10 1 ≠
      ((jsRound ((21 : ℚ) / 2 * 1)).toNat, (jsRound ((10 : ℚ) * 1)).toNat) := by
  have h1 : ((21 : ℚ) / 2 * 1) = 21 / 2 := by norm_num
  have hf : Int.floor ((21 : ℚ) / 2) = 10 := by norm_num
  have hr : jsRound ((21 : ℚ) / 2) = 11 := by
    unfold jsRound
    norm_num
  have hw : toUint32 ((21 : ℚ) / 2 * 1) = 10 := by
    unfold toUint32 jsTrunc
    rw [h1]
    norm_num [hf]
    decide
  have hh : toUint32 ((10 : ℚ) * 1) = 10 := by
    unfold toUint32 jsTrunc
    norm_num
    decide
  refine ⟨?_, ?_, ?_⟩
  · unfold canvasDims
    rw [hw, hh]
  · rw [h1, hr]
    rfl
  · unfold canvasDims
    rw [hw, hh, h1, hr]
    simp

lemma toUint32_eq_floor (q : ℚ) (h0 : 0 ≤ q) (hlt : q < 2 ^ 32) :
    toUint32 q = (Int.floor q).toNat := by
  unfold toUint32 jsTrunc
  rw [if_neg (not_lt.mpr h0)]
  have hfl0 : (0 : Int) ≤ Int.floor q := Int.floor_nonneg.mpr h0
  have hflt : Int.floor q < (2 ^ 32 : Int) := by
    rw [Int.floor_lt]
    push_cast
    exact hlt
  rw [Int.emod_eq_of_lt hfl0 hflt]

lemma jsRound_of_den_one (q : ℚ) (hden : q.den = 1) : jsRound q = Int.floor q := by
  have hq : ((q.num : ℚ)) = q := Rat.den_eq_one_iff q |>.mp hden
  unfold jsRound
  rw [← hq, Int.floor_intCast]
  rw [Int.floor_eq_iff]
  constructor
  · linarith
  · linarith

/-- C7 (amended): for scale 1, 2 or 10 and nonnegative intrinsic dimensions
below the 2^32 WebIDL bound, the raster surface is sized by truncation:
`⌊width*scale⌋ × ⌊height*scale⌋`; this coincides with the claimed
`round(width*scale) × round(height*scale)` exactly when both products are
integers — in particular for integral intrinsic dimensions — but not in
general for non-integral ones. -/
theorem canvas_dims_amended (w h s : ℚ)
    (hsv : s = 1 ∨ s = 2 ∨ s = 10) (hw : 0 ≤ w) (hh : 0 ≤ h)
    (hwb : w * s < 2 ^ 32) (hhb : h * s < 2 ^ 32) :
    canvasDims w h s = ((Int.floor (w * s)).toNat, (Int.floor (h * s)).toNat) ∧
    ((w * s).den = 1 → (h * s).den = 1 →
      canvasDims w h s = ((jsRound (w * s)).toNat, (jsRound (h * s)).toNat)) := by
  have hs0 : (0 : ℚ) ≤ s := by
    rcases hsv with rfl | rfl | rfl <;> norm_num
  have hws : 0 ≤ w * s := mul_nonneg hw hs0
  have hhs : 0 ≤ h * s := mul_nonneg hh hs0
  have hbase : canvasDims w h s =
      ((Int.floor (w * s)).toNat, (Int.floor (h * s)).toNat) := by
    unfold canvasDims
    rw [toUint32_eq_floor (w * s) hws hwb, toUint32_eq_floor (h * s) hhs hhb]
  refine ⟨hbase, ?_⟩
  intro hd1 hd2
  rw [hbase, jsRound_of_den_one (w * s) hd1, jsRound_of_den_one (h * s) hd2]

/-- Concrete instantiation of the surface-sizing theorem: 3 by 4 at scale 2
gives a 6-by-8 surface, agreeing with rounding since the products are
integral. -/
theorem canvas_dims_amended_witness :
    canvasDims 3 4 2 = ((Int.floor ((3 : ℚ) * 2)).toNat,
      (Int.floor ((4 : ℚ) * 2)).toNat) ∧
    (((3 : ℚ) * 2).den = 1 → ((4 : ℚ) * 2).den = 1 →
      canvasDims 3 4 2 = ((jsRound ((3 : ℚ) * 2)).toNat,
        (jsRound ((4 : ℚ) * 2)).toNat)) :=
  canvas_dims_amended 3 4 2 (Or.inr (Or.inl rfl)) (by norm_num) (by norm_num)
    (by norm_num) (by norm_num)

/-! ## Export driver (`MermaidSelectionModal.onOpen`, main.ts lines 327-416)

The per-block render step is abstracted by its three observable outcomes
(promise rejection, timeout returning null, successful SVG); the directory
dialog by its optional result.  The export button handler computes the
selected indices, resolves one directory, then runs the sequential loop
inside a single try/catch. -/

/-- `this.selected.map((val, idx) => val ? idx : -1).filter(idx => idx !== -1)`
of main.ts line 361. -/
def selectedIndicesOf (selected : List Bool) : List Int :=
  (selected.enum.map (fun p => if p.2 then (p.1 : Int) else -1)).filter
    (fun x => x != -1)

/-- Outcome of a `renderMermaidToSvg` call as seen by the driver loop:
the promise rejects, resolves to null, or resolves to an SVG. -/
inductive RenderStep where
  | throws
  | timeout
  | ok
  deriving DecidableEq, Repr

/-- Arguments of one `saveSvgAsImage` invocation made by the driver. -/
structure SaveCall where
  index : Int
  heading : String
  targetDirectory : Option String
  skipOpen : Bool
  deriving DecidableEq, Repr

/-- Accumulated observations of the driver loop. -/
structure LoopResult where
  saveCalls : List SaveCall
  notices : List String
  processed : List Int
  completed : Bool
  deriving DecidableEq, Repr

/-- The per-item timeout notice of main.ts line 401. -/
def timeoutMsg (i : Int) : String :=
  "Failed to render diagram #" ++ toString (i + 1) ++ " (Timeout or not found)"

/-- The `for (const index of selectedIndices)` loop of main.ts lines 395-403,
run inside the single try/catch of lines 394-409: a rejection from the render
step is caught at batch level, reported once, and ends the loop; a null
render yields a per-item notice and the loop continues; an SVG yields a
`saveSvgAsImage` call (which itself never throws) and the loop continues. -/
def exportLoop (blocks : List MermaidBlock) (render : Int → RenderStep)
    (dir : String) (isBulk : Bool) : List Int → LoopResult
  | [] => ⟨[], [], [], true⟩
  | i :: rest =>
    match render i with
    | RenderStep.throws => ⟨[], ["Export failed"], [i], false⟩
    | RenderStep.timeout =>
      let r := exportLoop blocks render dir isBulk rest
      ⟨r.saveCalls, timeoutMsg i :: r.notices, i :: r.processed, r.completed⟩
    | RenderStep.ok =>
      let block := blocks.getD i.toNat ⟨"", ""⟩
      let r := exportLoop blocks render dir isBulk rest
      ⟨⟨i, block.heading, some dir, isBulk⟩ :: r.saveCalls, r.notices,
        i :: r.processed, r.completed⟩

/-- Result of one click of the "Export Selected" button. -/
structure DriverResult where
  dirDialogInvoked : Bool
  saveCalls : List SaveCall
  notices : List String
  processed : List Int
  completed : Bool
  openedDirectory : Bool
  deriving DecidableEq, Repr

/-- The export-button handler of main.ts lines 360-415: bail out on an empty
selection; otherwise open the directory dialog (for any selection size);
bail out on cancel; then run the loop with `isBulk = selectedIndices.length
> 1` and finally open the directory once when bulk and auto-open hold. -/
def driverRun (blocks : List MermaidBlock) (selected : List Bool)
    (render : Int → RenderStep) (dirResult : Option String) (autoOpen : Bool) :
    DriverResult :=
  let idxs := selectedIndicesOf selected
  if idxs.isEmpty then
    ⟨false, [], ["No blocks selected"], [], false, false⟩
  else
    match dirResult with
    | none => ⟨true, [], [], [], false, false⟩
    | some dir =>
      let isBulk := decide (idxs.length > 1)
      let r := exportLoop blocks render dir isBulk idxs
      ⟨true, r.saveCalls, r.notices, r.processed, r.completed,
        isBulk && autoOpen⟩

/-- C5 counterexample: with both blocks selected and the render step throwing
on the first, the batch-level catch fires once and the second selected block
is never processed — one diagram's exception does abort its siblings. -/
theorem batch_abort_cex :
    (driverRun [⟨"a", "h1"⟩, ⟨"b", "h2"⟩] [true, true]
      (fun i => if i = 0 then RenderStep.throws else RenderStep.ok)
      (some "d") false).processed = [0] ∧
    (1 : Int) ∉ (driverRun [⟨"a", "h1"⟩, ⟨"b", "h2"⟩] [true, true]
      (fun i => if i = 0 then RenderStep.throws else RenderStep.ok)
      (some "d") false).processed ∧
    (driverRun [⟨"a", "h1"⟩, ⟨"b", "h2"⟩] [true, true]
      (fun i => if i = 0 then RenderStep.throws else RenderStep.ok)
      (some "d") false).completed = false := by
  refine ⟨?_, ?_, ?_⟩ <;> decide

lemma exportLoop_no_throws (blocks : List MermaidBlock) (render : Int → RenderStep)
    (dir : String) (isBulk : Bool) :
    ∀ idxs : List Int, (∀ i ∈ idxs, render i ≠ RenderStep.throws) →
      (exportLoop blocks render dir isBulk idxs).processed = idxs ∧
      (exportLoop blocks render dir isBulk idxs).completed = true ∧
      (exportLoop blocks render dir isBulk idxs).notices =
        idxs.filterMap (fun i =>
          if render i = RenderStep.timeout then some (timeoutMsg i) else none)
  | [] => fun _ => ⟨rfl, rfl, rfl⟩
  | i :: rest => by
    intro h
    have hrest := exportLoop_no_throws blocks render dir isBulk rest
      (fun j hj => h j (List.mem_cons_of_mem i hj))
    have hi := h i (List.mem_cons_self i rest)
    cases hr : render i with
    | throws => exact absurd hr hi
    | timeout =>
      refine ⟨?_, ?_, ?_⟩ <;>
        simp [exportLoop, hr, hrest.1, hrest.2.1, hrest.2.2]
    | ok =>
      refine ⟨?_, ?_, ?_⟩ <;>
        simp [exportLoop, hr, hrest.1, hrest.2.1, hrest.2.2]

/-- C5 (amended): as long as no selected block's render step throws, every
selected block is processed, the batch completes, and the only per-block
failures — render timeouts — surface as per-item notices without stopping
the remaining blocks (save-step failures are caught inside `saveSvgAsImage`
and never reach the loop); but an exception thrown by the render step is
caught once at batch level and aborts the remaining selected blocks. -/
theorem batch_perItem_amended (blocks : List MermaidBlock) (selected : List Bool)
    (render : Int → RenderStep) (dir : String) (autoOpen : Bool)
    (hnt : ∀ i ∈ selectedIndicesOf selected, render i ≠ RenderStep.throws)
    (hne : selectedIndicesOf selected ≠ []) :
    (driverRun blocks selected render (some dir) autoOpen).processed =
      selectedIndicesOf selected ∧
    (driverRun blocks selected render (some dir) autoOpen).completed = true ∧
    (driverRun blocks selected render (some dir) autoOpen).notices =
      (selectedIndicesOf selected).filterMap (fun i =>
        if render i = RenderStep.timeout then some (timeoutMsg i) else none) := by
  have hemp : (selectedIndicesOf selected).isEmpty = false := by
    cases h : selectedIndicesOf selected with
    | nil => exact absurd h hne
    | cons a l => rfl
  have hloop := exportLoop_no_throws blocks render dir
    (decide ((selectedIndicesOf selected).length > 1))
    (selectedIndicesOf selected) hnt
  refine ⟨?_, ?_, ?_⟩ <;>
    simp [driverRun, hemp, hloop.1, hloop.2.1, hloop.2.2]

/-- Concrete instantiation of the amended batch theorem: two selected blocks
that both time out produce two per-item notices and both get processed. -/
theorem batch_perItem_amended_witness :
    (driverRun [⟨"a", "h1"⟩, ⟨"b", "h2"⟩] [true, true]
      (fun _ => RenderStep.timeout) (some "d") false).processed =
      selectedIndicesOf [true, true] ∧
    (driverRun [⟨"a", "h1"⟩, ⟨"b", "h2"⟩] [true, true]
      (fun _ => RenderStep.timeout) (some "d") false).completed = true ∧
    (driverRun [⟨"a", "h1"⟩, ⟨"b", "h2"⟩] [true, true]
      (fun _ => RenderStep.timeout) (some "d") false).notices =
      (selectedIndicesOf [true, true]).filterMap (fun i =>
        if (fun _ => RenderStep.timeout) i = RenderStep.timeout then
          some (timeoutMsg i) else none) :=
  batch_perItem_amended [⟨"a", "h1"⟩, ⟨"b", "h2"⟩] [true, true]
    (fun _ => RenderStep.timeout) "d" false (by decide) (by decide)

lemma exportLoop_calls (blocks : List MermaidBlock) (render : Int → RenderStep)
    (dir : String) (isBulk : Bool) :
    ∀ (idxs : List Int) (c : SaveCall),
      c ∈ (exportLoop blocks render dir isBulk idxs).saveCalls →
      c.index ∈ idxs ∧ c.targetDirectory = some dir
  | [], c => by
    intro hc
    simp [exportLoop] at hc
  | i :: rest, c => by
    intro hc
    cases hr : render i with
    | throws => simp [exportLoop, hr] at hc
    | timeout =>
      simp only [exportLoop, hr] at hc
      have := exportLoop_calls blocks render dir isBulk rest c hc
      exact ⟨List.mem_cons_of_mem i this.1, this.2⟩
    | ok =>
      simp only [exportLoop, hr] at hc
      rcases List.mem_cons.mp hc with hc | hc
      · rw [hc]
        exact ⟨List.mem_cons_self i rest, rfl⟩
      · have := exportLoop_calls blocks render dir isBulk rest c hc
        exact ⟨List.mem_cons_of_mem i this.1, this.2⟩

lemma exportLoop_all_ok (blocks : List MermaidBlock) (render : Int → RenderStep)
    (dir : String) (isBulk : Bool) (hok : ∀ i, render i = RenderStep.ok) :
    ∀ idxs : List Int,
      (exportLoop blocks render dir isBulk idxs).saveCalls.map SaveCall.index = idxs
  | [] => rfl
  | i :: rest => by
    simp [exportLoop, hok i, exportLoop_all_ok blocks render dir isBulk hok rest]

lemma mem_selEnumAux :
    ∀ (sel : List Bool) (start k : Nat), k < sel.length →
      sel.getD k false = true →
      ((start + k : Nat) : Int) ∈
        ((List.enumFrom start sel).map (fun p => if p.2 then (p.1 : Int) else -1)).filter
          (fun x => x != -1)
  | [], start, k => by
    intro hk _
    exact absurd hk (by simp)
  | b :: rest, start, 0 => by
    intro _ hb
    have hb' : b = true := by simpa using hb
    subst hb'
    have hkeep : (((start : Int)) != -1) = true := by
      simp only [bne_iff_ne, ne_eq]
      omega
    simp [List.enumFrom, List.filter_cons, hkeep]
  | b :: rest, start, k + 1 => by
    intro hk hb
    have hrec := mem_selEnumAux rest (start + 1) k (by simpa using hk)
      (by simpa using hb)
    have harith : ((start + (k + 1) : Nat) : Int) = (((start + 1) + k : Nat) : Int) := by
      push_cast
      ring
    rw [harith]
    cases b with
    | true =>
      have hkeep : (((start : Int)) != -1) = true := by
        simp only [bne_iff_ne, ne_eq]
        omega
      simp only [List.enumFrom, List.map_cons, if_pos, List.filter_cons, hkeep]
      exact List.mem_cons_of_mem _ hrec
    | false =>
      have hdropd : (((-1 : Int)) != -1) = false := by decide
      simp only [List.enumFrom, List.map_cons, if_neg, List.filter_cons, hdropd,
        Bool.false_eq_true, if_false]
      exact hrec

lemma mem_selectedIndicesOf (sel : List Bool) (k : Nat) (hk : k < sel.length)
    (hb : sel.getD k false = true) : (k : Int) ∈ selectedIndicesOf sel := by
  have := mem_selEnumAux sel 0 k hk hb
  simpa [selectedIndicesOf, List.enum] using this

/-- C9 counterexample: with exactly one block selected, the driver still
resolves a target directory through the directory-open dialog and hands it to
the save step, whose interactive file-save prompt is therefore never
consulted — contradicting the claim that only selections of two or more
resolve a directory while single selections use a file-save prompt. -/
theorem driver_single_dir_cex :
    (driverRun [⟨"g", "H"⟩] [true] (fun _ => RenderStep.ok)
      (some "d") false).dirDialogInvoked = true ∧
    (driverRun [⟨"g", "H"⟩] [true] (fun _ => RenderStep.ok)
      (some "d") false).saveCalls = [⟨0, "H", some "d", false⟩] ∧
    (saveSvgAsImage ⟨fun _ => none, some "chosen"⟩ ⟨2, "png", true, true⟩
      "Notes" "H" 0 [9] (some "d") false).usedSaveDialog = false := by
  refine ⟨?_, ?_, ?_⟩ <;> decide

/-- C9 (amended): for every nonempty selection — a single block included —
the driver resolves exactly one target directory via the directory-open
dialog and supplies it to every per-item save call, and `saveSvgAsImage`
never consults the interactive file-save prompt when a target directory is
supplied; the prompt branch is reserved for calls without a target
directory, which the driver never makes. -/
theorem driver_dir_amended (blocks : List MermaidBlock) (selected : List Bool)
    (render : Int → RenderStep) (dir : String) (autoOpen : Bool)
    (hne : selectedIndicesOf selected ≠ []) :
    (driverRun blocks selected render (some dir) autoOpen).dirDialogInvoked
      = true ∧
    (∀ c ∈ (driverRun blocks selected render (some dir) autoOpen).saveCalls,
      c.targetDirectory = some dir) ∧
    (∀ (env : SaveEnv) (st : SaveSettings) (bn h : String) (i : Int)
      (buf : List Nat) (d : String) (sk : Bool),
      (saveSvgAsImage env st bn h i buf (some d) sk).usedSaveDialog = false) := by
  have hemp : (selectedIndicesOf selected).isEmpty = false := by
    cases h : selectedIndicesOf selected with
    | nil => exact absurd h hne
    | cons a l => rfl
  refine ⟨by simp [driverRun, hemp], ?_, ?_⟩
  · intro c hc
    have hcalls : (driverRun blocks selected render (some dir) autoOpen).saveCalls =
        (exportLoop blocks render dir
          (decide ((selectedIndicesOf selected).length > 1))
          (selectedIndicesOf selected)).saveCalls := by
      simp [driverRun, hemp]
    rw [hcalls] at hc
    exact (exportLoop_calls blocks render dir _ _ c hc).2
  · intro env st bn h i buf d sk
    simp only [saveSvgAsImage]
    split
    · rfl
    · rfl

/-- Concrete instantiation of the amended driver theorem at a single-block
selection. -/
theorem driver_dir_amended_witness :
    (driverRun [⟨"g", "H"⟩] [true] (fun _ => RenderStep.ok)
      (some "d") true).dirDialogInvoked = true ∧
    (∀ c ∈ (driverRun [⟨"g", "H"⟩] [true] (fun _ => RenderStep.ok)
      (some "d") true).saveCalls, c.targetDirectory = some "d") ∧
    (∀ (env : SaveEnv) (st : SaveSettings) (bn h : String) (i : Int)
      (buf : List Nat) (d : String) (sk : Bool),
      (saveSvgAsImage env st bn h i buf (some d) sk).usedSaveDialog = false) :=
  driver_dir_amended [⟨"g", "H"⟩] [true] (fun _ => RenderStep.ok) "d" true
    (by decide)

/-- C10: the 1-based index on each exported filename is the block's position
in the full document-order sequence of extracted blocks, not its rank within
the selection: whenever the block at 0-based document position `k` is
selected, `k` appears among the loop indices, every save call's filename
ends in `-<documentIndex+1>.<format>`, and with an always-succeeding render
step the save calls carry exactly the selected document indices in order. -/
theorem fileName_index_document_order (blocks : List MermaidBlock)
    (selected : List Bool) (render : Int → RenderStep) (dir base fmt : String)
    (autoOpen : Bool) (k : Nat) (hk : k < selected.length)
    (hsel : selected.getD k false = true) :
    (k : Int) ∈ selectedIndicesOf selected ∧
    (∀ c ∈ (driverRun blocks selected render (some dir) autoOpen).saveCalls,
      c.index ∈ selectedIndicesOf selected ∧
      ∃ p, defaultFileName base c.heading c.index fmt =
        p ++ "-" ++ toString (c.index + 1) ++ "." ++ fmt) ∧
    ((∀ i, render i = RenderStep.ok) →
      (driverRun blocks selected render (some dir) autoOpen).saveCalls.map
        SaveCall.index = selectedIndicesOf selected) := by
  have hmem := mem_selectedIndicesOf selected k hk hsel
  have hne : selectedIndicesOf selected ≠ [] := by
    intro h
    rw [h] at hmem
    exact absurd hmem (List.not_mem_nil _)
  have hemp : (selectedIndicesOf selected).isEmpty = false := by
    cases h : selectedIndicesOf selected with
    | nil => exact absurd h hne
    | cons a l => rfl
  have hcalls : (driverRun blocks selected render (some dir) autoOpen).saveCalls =
      (exportLoop blocks render dir
        (decide ((selectedIndicesOf selected).length > 1))
        (selectedIndicesOf selected)).saveCalls := by
    simp [driverRun, hemp]
  refine ⟨hmem, ?_, ?_⟩
  · intro c hc
    rw [hcalls] at hc
    refine ⟨(exportLoop_calls blocks render dir _ _ c hc).1, ?_⟩
    exact ⟨base ++ "-" ++ sanitizeHeading c.heading, rfl⟩
  · intro hok
    rw [hcalls]
    exact exportLoop_all_ok blocks render dir _ hok (selectedIndicesOf selected)

/-- Concrete instantiation of the document-order index theorem: the second
of two blocks, selected alone, is exported with index 2 in the filename. -/
theorem fileName_index_document_order_witness :
    ((1 : Nat) : Int) ∈ selectedIndicesOf [false, true] ∧
    (∀ c ∈ (driverRun [⟨"a", "h1"⟩, ⟨"b", "h2"⟩] [false, true]
        (fun _ => RenderStep.ok) (some "d") false).saveCalls,
      c.index ∈ selectedIndicesOf [false, true] ∧
      ∃ p, defaultFileName "N" c.heading c.index "png" =
        p ++ "-" ++ toString (c.index + 1) ++ "." ++ "png") ∧
    ((∀ i : Int, (fun _ : Int => RenderStep.ok) i = RenderStep.ok) →
      (driverRun [⟨"a", "h1"⟩, ⟨"b", "h2"⟩] [false, true]
        (fun _ => RenderStep.ok) (some "d") false).saveCalls.map
        SaveCall.index = selectedIndicesOf [false, true]) :=
  fileName_index_document_order [⟨"a", "h1"⟩, ⟨"b", "h2"⟩] [false, true]
    (fun _ => RenderStep.ok) "d" "N" "png" false 1 (by decide) (by decide)
